import Mathlib

/-!
Shallow embedding of the Seastar httpd core (`http/httpd.hh`): the
per-connection state machine pieces (`generate_reply`, `upgrade_websocket`,
`start_response`), the URL/query decoding helpers (`url_decode`, `add_param`,
`set_query_param`), and an event model of the server lifecycle counters
(`maybe_idle`, `stop`, connection construction and destruction).

C++ strings are modelled as `List Char` (one `Char` per byte) where byte-level
indexing matters, and as `String` for header names and values.  Header maps
(`std::unordered_map<sstring, sstring>`) are modelled as association lists with
first-match lookup and insert-or-replace assignment.
-/

namespace httpd

/-- Lookup in an association list, modelling `std::unordered_map::find`. -/
def mapFind {α β : Type} [BEq α] (m : List (α × β)) (k : α) : Option β :=
  (m.find? (fun p => p.1 == k)).map (fun p => p.2)

/-- Insert-or-replace, modelling assignment through `operator[]`. -/
def mapSet {α β : Type} [BEq α] (m : List (α × β)) (k : α) (v : β) : List (α × β) :=
  (k, v) :: m.filter (fun p => !(p.1 == k))

/-- Substring containment, modelling `std::string::find(pat) != npos`. -/
def containsSub (hay pat : List Char) : Bool :=
  hay.tails.any (fun t => pat.isPrefixOf t)

/-- Index of the first occurrence of a character, modelling `sstring::find(c)`
(`none` plays the role of `npos`). -/
def find_char (l : List Char) (c : Char) : Option Nat :=
  match l with
  | [] => none
  | x :: xs => if x = c then some 0 else (find_char xs c).map (fun n => n + 1)

/-- Split on a separator character; models the `find('&', curr)` loop of
`set_query_param`, which yields the tokens between consecutive separators
(always at least one token, possibly empty). -/
def split_on_char (c : Char) (l : List Char) : List (List Char) :=
  match l with
  | [] => [[]]
  | x :: xs =>
    if x = c then [] :: split_on_char c xs
    else
      match split_on_char c xs with
      | [] => [[x]]
      | t :: ts => (x :: t) :: ts

/-- The reply status codes used by the httpd core. -/
inductive status_type where
  | ok
  | switching_protocols
  | bad_request
  | not_found
  | internal_server_error
  deriving DecidableEq, Repr

/-- Numeric status codes. -/
def status_code : status_type → Nat
  | .ok => 200
  | .switching_protocols => 101
  | .bad_request => 400
  | .not_found => 404
  | .internal_server_error => 500

/-- Model of `httpd::reply`: status, version, headers, body. -/
structure reply where
  _status : status_type := .ok
  _version : String := ""
  _headers : List (String × String) := []
  _content : List Char := []
  deriving DecidableEq, Repr

/-- Model of `httpd::request`: raw URL, version, headers, decoded query parameters. -/
structure request where
  _url : List Char := []
  _version : String := ""
  _headers : List (String × String) := []
  query_parameters : List (List Char × List Char) := []
  deriving DecidableEq, Repr

/-- Model of `connection::connection_status`. -/
inductive connection_status where
  | keep_open
  | close
  | detach
  deriving DecidableEq, Repr

/-- The connection-local state touched by `upgrade_websocket`: the retained
request `_req`, the status `_done`, and the reply queue `_replies`. -/
structure conn_state where
  _req : Option request := none
  _done : connection_status := .keep_open
  _replies : List reply := []
  deriving DecidableEq, Repr

/-- Model of `connection::hex_to_byte`: the exact C++ arithmetic, including its
behaviour on non-hex characters (`c - '0'` as a signed value). -/
def hex_to_byte (c : Char) : Int :=
  if 'a'.toNat ≤ c.toNat ∧ c.toNat ≤ 'z'.toNat then
    (c.toNat : Int) - ('a'.toNat : Int) + 10
  else if 'A'.toNat ≤ c.toNat ∧ c.toNat ≤ 'Z'.toNat then
    (c.toNat : Int) - ('A'.toNat : Int) + 10
  else
    (c.toNat : Int) - ('0'.toNat : Int)

/-- Model of `connection::hexstr_to_char`: `static_cast<char>` truncates the short to a
byte, i.e. reduces it modulo 256. -/
def hexstr_to_char (a b : Char) : Char :=
  Char.ofNat ((hex_to_byte a * 16 + hex_to_byte b) % 256).toNat

/-- Model of `connection::url_decode`: `%` consumes two further characters when at least
two remain (failing otherwise), `+` becomes a space, everything else is copied. -/
def url_decode_list : List Char → Option (List Char)
  | [] => some []
  | '%' :: a :: b :: rest => (url_decode_list rest).map (fun l => hexstr_to_char a b :: l)
  | ['%'] => none
  | ['%', _] => none
  | '+' :: rest => (url_decode_list rest).map (fun l => ' ' :: l)
  | c :: rest => (url_decode_list rest).map (fun l => c :: l)

/-- Model of `connection::add_param`: split the token at the first `=`; the C++
comparison `split >= param.length() - 1` (in `size_t` arithmetic) is true when
`=` is absent (`npos`) or is the last character. -/
def add_param (q : List (List Char × List Char)) (param : List Char) :
    List (List Char × List Char) :=
  match find_char param '=' with
  | none =>
    match url_decode_list param with
    | some key => mapSet q key []
    | none => q
  | some split =>
    if param.length ≤ split + 1 then
      match url_decode_list (param.take split) with
      | some key => mapSet q key []
      | none => q
    else
      match url_decode_list (param.take split), url_decode_list (param.drop (split + 1)) with
      | some key, some value => mapSet q key value
      | _, _ => q

/-- Model of `connection::set_query_param`: returns the mutated request together with
the returned path (the URL up to the first `?`). -/
def set_query_param (req : request) : request × List Char :=
  match find_char req._url '?' with
  | none => (req, req._url)
  | some pos =>
    let toks := split_on_char '&' (req._url.drop (pos + 1))
    ({ req with query_parameters := toks.foldl add_param req.query_parameters },
     req._url.take pos)

/-- The header inspection in `generate_reply` that diverts to
`upgrade_websocket`: the `Connection` value is neither exactly `Keep-Alive` nor
exactly `Close`, contains `Upgrade` as a substring, and the `Upgrade` header
equals `websocket` case-insensitively. -/
def upgrade_requested (req : request) : Bool :=
  match mapFind req._headers "Connection" with
  | none => false
  | some v =>
    if v == "Keep-Alive" then false
    else if v == "Close" then false
    else if containsSub v.data "Upgrade".data then
      match mapFind req._headers "Upgrade" with
      | none => false
      | some u => u.data.map Char.toLower == "websocket".data
    else false

/-! SHA-1 and base64, used by the websocket accept-key computation.  The code
computing the `Sec-WebSocket-Accept` value (`generate_websocket_key`) lives in
`http/websocket.hh`, which is not part of the sources; it is modelled from the
spec below on top of these standard algorithms. -/

/-- Left rotation of a 32-bit word. -/
def rotl32 (n x : Nat) : Nat :=
  ((x <<< n) ||| (x >>> (32 - n))) % 4294967296

/-- Big-endian bytes of a 32-bit word. -/
def be32 (n : Nat) : List Nat :=
  [(n >>> 24) % 256, (n >>> 16) % 256, (n >>> 8) % 256, n % 256]

/-- Big-endian bytes of a 64-bit word. -/
def be64 (n : Nat) : List Nat :=
  [(n >>> 56) % 256, (n >>> 48) % 256, (n >>> 40) % 256, (n >>> 32) % 256,
   (n >>> 24) % 256, (n >>> 16) % 256, (n >>> 8) % 256, n % 256]

/-- SHA-1 message padding: a `0x80` byte, zeros to 56 mod 64, then the bit
length as a 64-bit big-endian integer. -/
def sha1_pad (msg : List Nat) : List Nat :=
  msg ++ [128] ++ List.replicate ((119 - msg.length % 64) % 64) 0 ++ be64 (msg.length * 8)

/-- Split a byte list into 64-byte chunks. -/
def chunks64 (l : List Nat) : List (List Nat) :=
  if l = [] then []
  else l.take 64 :: chunks64 (l.drop 64)
termination_by l.length
decreasing_by
  cases l with
  | nil => simp_all
  | cons a t => simp [List.length_drop]; omega

/-- The 80-entry message schedule of one SHA-1 chunk. -/
def sha1_words (chunk : List Nat) : Array Nat :=
  let w0 : Array Nat := ((List.range 16).map (fun i =>
    (chunk.getD (4 * i) 0) <<< 24 + (chunk.getD (4 * i + 1) 0) <<< 16 +
    (chunk.getD (4 * i + 2) 0) <<< 8 + chunk.getD (4 * i + 3) 0)).toArray
  (List.range 64).foldl (fun w i =>
    w.push (rotl32 1 ((((w.getD (i + 13) 0).xor (w.getD (i + 8) 0)).xor
      (w.getD (i + 2) 0)).xor (w.getD i 0)))) w0

/-- One SHA-1 round. -/
def sha1_round (st : Nat × Nat × Nat × Nat × Nat) (t wt : Nat) :
    Nat × Nat × Nat × Nat × Nat :=
  let a := st.1; let b := st.2.1; let c := st.2.2.1; let d := st.2.2.2.1; let e := st.2.2.2.2
  let f :=
    if t < 20 then (b &&& c) ||| ((b.xor 4294967295) &&& d)
    else if t < 40 then (b.xor c).xor d
    else if t < 60 then (b &&& c) ||| (b &&& d) ||| (c &&& d)
    else (b.xor c).xor d
  let k :=
    if t < 20 then 1518500249
    else if t < 40 then 1859775393
    else if t < 60 then 2400959708
    else 3395469782
  ((rotl32 5 a + f + e + k + wt) % 4294967296, a, rotl32 30 b, c, d)

/-- Process one 64-byte chunk. -/
def sha1_chunk (h : Nat × Nat × Nat × Nat × Nat) (chunk : List Nat) :
    Nat × Nat × Nat × Nat × Nat :=
  let w := sha1_words chunk
  let r := (List.range 80).foldl (fun st t => sha1_round st t (w.getD t 0)) h
  ((h.1 + r.1) % 4294967296, (h.2.1 + r.2.1) % 4294967296,
   (h.2.2.1 + r.2.2.1) % 4294967296, (h.2.2.2.1 + r.2.2.2.1) % 4294967296,
   (h.2.2.2.2 + r.2.2.2.2) % 4294967296)

/-- SHA-1 of a byte list, as 20 bytes. -/
def sha1 (msg : List Nat) : List Nat :=
  let r := (chunks64 (sha1_pad msg)).foldl sha1_chunk
    (1732584193, 4023233417, 2562383102, 271733878, 3285377520)
  be32 r.1 ++ be32 r.2.1 ++ be32 r.2.2.1 ++ be32 r.2.2.2.1 ++ be32 r.2.2.2.2

/-- The base64 alphabet. -/
def b64char (n : Nat) : Char :=
  "ABCDEFGHIJKLMNOPQRSTUVWXYZabcdefghijklmnopqrstuvwxyz0123456789+/".data.getD n 'A'

/-- Base64 encoding of a byte list. -/
def base64_encode : List Nat → List Char
  | [] => []
  | [a] => [b64char (a >>> 2), b64char ((a % 4) <<< 4), '=', '=']
  | [a, b] => [b64char (a >>> 2), b64char ((a % 4) <<< 4 + b >>> 4),
               b64char ((b % 16) <<< 2), '=']
  | a :: b :: c :: rest =>
    b64char (a >>> 2) :: b64char ((a % 4) <<< 4 + b >>> 4) ::
    b64char ((b % 16) <<< 2 + c >>> 6) :: b64char (c % 64) :: base64_encode rest

/-- The RFC 6455 magic GUID. -/
def websocket_magic : List Char := "258EAFA5-E914-47DA-95CA-C5AB0DC85B11".data

/-- Modelled from the spec: `httpd::generate_websocket_key` is defined in
`http/websocket.hh`, which is not among the sources; per the spec it is the
base64 encoding of `SHA1(key || MAGIC)` with the magic GUID above. -/
def generate_websocket_key (key : List Char) : List Char :=
  base64_encode (sha1 ((key ++ websocket_magic).map Char.toNat))

/-- Model of `connection::upgrade_websocket`.  `get_ws_handler` lives in
`http/routes.hh` (not among the sources); modelled from the spec as an exact
lookup of the path among the registered WebSocket routes `wsr`.  The refused
branch assigns `_done = close` and then both branches unconditionally assign
`_done = detach` before pushing the reply, so the final state is recorded
here. -/
def upgrade_websocket (wsr : List (List Char)) (st : conn_state) (req : request) :
    conn_state × connection_status :=
  let req2 := (set_query_param req).1
  let url := (set_query_param req).2
  let resp0 : reply := { _version := req._version }
  match mapFind req2._headers "Sec-WebSocket-Key" with
  | some key =>
    if wsr.contains url then
      let resp := { resp0 with
        _status := .switching_protocols
        _headers := mapSet
          (mapSet (mapSet resp0._headers "Upgrade" "websocket") "Connection" "Upgrade")
          "Sec-WebSocket-Accept" (String.mk (generate_websocket_key key.data)) }
      ({ st with
          _req := some req2
          _done := .detach
          _replies := st._replies ++ [resp] }, .detach)
    else
      ({ st with
          _done := .detach
          _replies := st._replies ++ [{ resp0 with _status := .bad_request }] }, .detach)
  | none =>
    ({ st with
        _done := .detach
        _replies := st._replies ++ [{ resp0 with _status := .bad_request }] }, .detach)

/-- The outcome of `generate_reply` up to the route-table invocation: either
the call was diverted to `upgrade_websocket`, or a prepared reply (version set,
`Connection: Keep-Alive` added on the HTTP/1.0 keep-alive path) is handed to
the handler together with the close decision. -/
inductive gen_outcome where
  | upgraded (st : conn_state) (s : connection_status)
  | normal (resp : reply) (should_close : Bool) (req2 : request) (url : List Char)
  deriving DecidableEq, Repr

/-- Model of `connection::generate_reply`. -/
def generate_reply (wsr : List (List Char)) (st : conn_state) (req : request) :
    gen_outcome :=
  if upgrade_requested req then
    let r := upgrade_websocket wsr st req
    .upgraded r.1 r.2
  else
    let conn_keep_alive := mapFind req._headers "Connection" == some "Keep-Alive"
    let conn_close := mapFind req._headers "Connection" == some "Close"
    let resp0 : reply := { _version := req._version }
    let resp1 := if req._version == "1.0" && conn_keep_alive then
        { resp0 with _headers := mapSet resp0._headers "Connection" "Keep-Alive" }
      else resp0
    let should_close :=
      if req._version == "1.0" then !conn_keep_alive
      else if req._version == "1.1" then conn_close
      else true
    .normal resp1 should_close (set_query_param req).1 (set_query_param req).2

/-- The `connection_status` that `generate_reply` ultimately returns: the
result of `upgrade_websocket` when diverted, otherwise `close` or `keep_open`
per `should_close` after the handler completes. -/
def generate_reply_status (wsr : List (List Char)) (st : conn_state) (req : request) :
    connection_status :=
  match generate_reply wsr st req with
  | .upgraded _ s => s
  | .normal _ sc _ _ => if sc then .close else .keep_open

/-- The reply prepared by `generate_reply` and handed to the route table
(`none` when the call was diverted to `upgrade_websocket`). -/
def generate_reply_prepared (wsr : List (List Char)) (st : conn_state) (req : request) :
    Option reply :=
  match generate_reply wsr st req with
  | .upgraded _ _ => none
  | .normal resp _ _ _ => some resp

/-- Definition following the words of the closure-rule claim, for comparison
with the source embedding: HTTP/1.0 closes unless keep-alive was requested,
HTTP/1.1 closes only if close was requested, any other version always closes,
and otherwise the connection is kept open. -/
def claim_closure_status (req : request) : connection_status :=
  if req._version == "1.0" then
    (if mapFind req._headers "Connection" == some "Keep-Alive" then .keep_open else .close)
  else if req._version == "1.1" then
    (if mapFind req._headers "Connection" == some "Close" then .close else .keep_open)
  else .close

/-- Model of `connection::start_response`, restricted to its header mutations: the
three mandatory headers are assigned before anything is serialized. -/
def start_response_headers (date : String) (r : reply) : reply :=
  { r with
      _headers := mapSet
        (mapSet (mapSet r._headers "Server" "Seastar httpd") "Date" date)
        "Content-Length" (toString r._content.length) }

/-! Event model of the server lifecycle: the counters and the quiescence
promise of `http_server`, driven by the call sites in `do_accepts`, the
`connection` constructor/destructor and `stop`. -/

/-- The `http_server` state touched by the accept loop, the connection
constructor/destructor, `maybe_idle` and `stop`. -/
structure server_state where
  _stopping : Bool := false
  _connections_being_accepted : Nat := 0
  _current_connections : Nat := 0
  _total_connections : Nat := 0
  _connections : List Nat := []
  _promise_set : Bool := false
  deriving DecidableEq, Repr

/-- Model of `http_server::maybe_idle`: resolve the quiescence promise when stopping
with no accepts in flight and no live connections. -/
def maybe_idle (s : server_state) : server_state :=
  if s._stopping ∧ s._connections_being_accepted = 0 ∧ s._current_connections = 0 then
    { s with _promise_set := true }
  else s

/-- The quiescence condition of the spec. -/
def quiesced (s : server_state) : Bool :=
  s._stopping && s._connections_being_accepted == 0 && s._current_connections == 0

/-- Events of the server lifecycle, one per call site that mutates the state:
starting an accept (from `listen`/`do_accepts`), an accept settling while
stopping (which calls `maybe_idle` and returns), an accept yielding a new
connection (constructor runs, then `do_accepts` recurses), an accept failing
while not stopping (the loop ends), a connection being destroyed (destructor
runs, then `maybe_idle`), and `stop()` setting the stopping flag (which calls
no `maybe_idle` itself). -/
inductive event where
  | startAccept
  | acceptSettleStopping
  | acceptNewConn (id : Nat)
  | acceptFail
  | destroyConn (id : Nat)
  | stopCall
  deriving DecidableEq, Repr

/-- One step of the server lifecycle; `none` when the event is not enabled. -/
def step (s : server_state) : event → Option server_state
  | .startAccept =>
    some { s with _connections_being_accepted := s._connections_being_accepted + 1 }
  | .acceptSettleStopping =>
    if s._connections_being_accepted > 0 ∧ s._stopping = true then
      some (maybe_idle
        { s with _connections_being_accepted := s._connections_being_accepted - 1 })
    else none
  | .acceptNewConn id =>
    if s._connections_being_accepted > 0 ∧ s._stopping = false ∧ id ∉ s._connections then
      some { s with
              _total_connections := s._total_connections + 1
              _current_connections := s._current_connections + 1
              _connections := id :: s._connections }
    else none
  | .acceptFail =>
    if s._connections_being_accepted > 0 ∧ s._stopping = false then
      some { s with _connections_being_accepted := s._connections_being_accepted - 1 }
    else none
  | .destroyConn id =>
    if id ∈ s._connections then
      some (maybe_idle
        { s with
            _current_connections := s._current_connections - 1
            _connections := s._connections.erase id })
    else none
  | .stopCall => some { s with _stopping := true }

/-- Run a trace of events from a state. -/
def run (tr : List event) (s : server_state) : Option server_state :=
  match tr with
  | [] => some s
  | e :: rest =>
    match step s e with
    | some s2 => run rest s2
    | none => none

/-- A freshly constructed server. -/
def server_init : server_state := {}

/-! Concrete inputs used by counterexamples and witnesses. -/

/-- A fresh connection state: no retained request, status `keep_open`, empty
reply queue. -/
def conn0 : conn_state := {}

/-- A websocket-upgrade request (HTTP/1.1, `Connection: Upgrade`,
`Upgrade: websocket`) carrying no `Sec-WebSocket-Key` header. -/
def req_upgrade_nokey : request :=
  { _url := "/x".data
    _version := "1.1"
    _headers := [("Connection", "Upgrade"), ("Upgrade", "websocket")] }

/-- An HTTP/1.0 request whose `Connection` header is the lowercase
`keep-alive`. -/
def req_keepalive_lower : request :=
  { _url := "/".data
    _version := "1.0"
    _headers := [("Connection", "keep-alive")] }

/-- An HTTP/1.0 request with `Connection: Keep-Alive` (the exact spelling the
source compares against). -/
def req_keepalive_exact : request :=
  { _url := "/".data
    _version := "1.0"
    _headers := [("Connection", "Keep-Alive")] }

/-- A websocket-upgrade request with a `Sec-WebSocket-Key` header. -/
def req_upgrade_key : request :=
  { _url := "/ws".data
    _version := "1.1"
    _headers := [("Connection", "Upgrade"), ("Upgrade", "websocket"),
                 ("Sec-WebSocket-Key", "dGhlIHNhbXBsZSBub25jZQ==")] }

/-- A plain HTTP/1.1 request with no headers. -/
def req_plain : request := { _url := "/a".data, _version := "1.1" }

/-- Hexadecimal digit of either case, as the spec's decoding rule reads. -/
def is_hex_digit (c : Char) : Bool :=
  ('0'.toNat ≤ c.toNat && c.toNat ≤ '9'.toNat) ||
  ('a'.toNat ≤ c.toNat && c.toNat ≤ 'f'.toNat) ||
  ('A'.toNat ≤ c.toNat && c.toNat ≤ 'F'.toNat)

/-- The numeric value of a hexadecimal digit. -/
def hex_digit_val (c : Char) : Nat :=
  if '0'.toNat ≤ c.toNat ∧ c.toNat ≤ '9'.toNat then c.toNat - '0'.toNat
  else if 'a'.toNat ≤ c.toNat ∧ c.toNat ≤ 'f'.toNat then c.toNat - 'a'.toNat + 10
  else c.toNat - 'A'.toNat + 10

/-- The server state right after `stop()` on a fresh server. -/
def s_after_stop : server_state := { _stopping := true }

/-- A lifecycle trace: one accept started, one connection accepted and later
destroyed. -/
def trace_accept_destroy : List event :=
  [.startAccept, .acceptNewConn 3, .destroyConn 3]

/-- The state reached by `trace_accept_destroy` from a fresh server. -/
def s_after_trace : server_state :=
  { _connections_being_accepted := 1, _total_connections := 1 }

/-- A stopping server with one accept still in flight. -/
def s_one_accept : server_state :=
  { _stopping := true, _connections_being_accepted := 1 }

/-- A stopping server with one live connection left. -/
def s_one_conn : server_state :=
  { _stopping := true, _current_connections := 1, _connections := [5] }

/-- A quiescent stopping server whose promise has been resolved. -/
def s_quiet : server_state :=
  { _stopping := true, _promise_set := true }

/-! Helper lemmas about the association-list operations. -/

theorem mapFind_mapSet_self {α β : Type} [BEq α] [LawfulBEq α]
    (m : List (α × β)) (k : α) (v : β) :
    mapFind (mapSet m k v) k = some v := by
  simp [mapFind, mapSet, List.find?]

theorem filter_find?_ne {α β : Type} [BEq α] [LawfulBEq α]
    (m : List (α × β)) (k k' : α) (h : k ≠ k') :
    List.find? (fun p => p.1 == k') (List.filter (fun p => !(p.1 == k)) m) =
      List.find? (fun p => p.1 == k') m := by
  induction m with
  | nil => rfl
  | cons p t ih =>
    cases hpk : (p.1 == k) with
    | true =>
      have hp : p.1 = k := eq_of_beq hpk
      have hpk' : (p.1 == k') = false := by
        simp only [beq_eq_false_iff_ne, ne_eq, hp]
        exact h
      simp [List.filter_cons, hpk, List.find?_cons, hpk', ih]
    | false =>
      cases hpk' : (p.1 == k') with
      | true => simp [List.filter_cons, hpk, List.find?_cons, hpk']
      | false => simp [List.filter_cons, hpk, List.find?_cons, hpk', ih]

theorem mapFind_mapSet_ne {α β : Type} [BEq α] [LawfulBEq α]
    (m : List (α × β)) (k k' : α) (v : β) (h : k ≠ k') :
    mapFind (mapSet m k v) k' = mapFind m k' := by
  have hk : ((k, v).1 == k') = false := by
    simp only [beq_eq_false_iff_ne, ne_eq]
    exact h
  simp only [mapFind, mapSet, List.find?_cons, hk, cond_false]
  rw [filter_find?_ne m k k' h]

/-! Helper lemmas about the URL decoder. -/

theorem url_decode_pct (a b : Char) (rest : List Char) :
    url_decode_list ('%' :: a :: b :: rest) =
      (url_decode_list rest).map (fun l => hexstr_to_char a b :: l) := rfl

theorem url_decode_plus (rest : List Char) :
    url_decode_list ('+' :: rest) = (url_decode_list rest).map (fun l => ' ' :: l) := by
  cases rest with
  | nil => rfl
  | cons c t => rfl

theorem hex_to_byte_of_hex (c : Char) (h : is_hex_digit c = true) :
    hex_to_byte c = (hex_digit_val c : Int) ∧ hex_digit_val c < 16 := by
  unfold is_hex_digit at h
  unfold hex_to_byte hex_digit_val
  have h0 : '0'.toNat = 48 := rfl
  have h9 : '9'.toNat = 57 := rfl
  have ha : 'a'.toNat = 97 := rfl
  have hf : 'f'.toNat = 102 := rfl
  have hz : 'z'.toNat = 122 := rfl
  have hA : 'A'.toNat = 65 := rfl
  have hF : 'F'.toNat = 70 := rfl
  have hZ : 'Z'.toNat = 90 := rfl
  simp only [h0, h9, ha, hf, hz, hA, hF, hZ] at h ⊢
  simp only [Bool.or_eq_true, Bool.and_eq_true, decide_eq_true_eq] at h
  split_ifs <;> constructor <;> omega

theorem hexstr_to_char_of_hex (a b : Char) (ha : is_hex_digit a = true)
    (hb : is_hex_digit b = true) :
    hexstr_to_char a b = Char.ofNat (hex_digit_val a * 16 + hex_digit_val b) := by
  obtain ⟨ea, la⟩ := hex_to_byte_of_hex a ha
  obtain ⟨eb, lb⟩ := hex_to_byte_of_hex b hb
  unfold hexstr_to_char
  rw [ea, eb]
  have hmod : ((hex_digit_val a : Int) * 16 + (hex_digit_val b : Int)) % 256 =
      ((hex_digit_val a * 16 + hex_digit_val b : Nat) : Int) := by
    rw [Int.emod_eq_of_lt] <;> push_cast <;> omega
  rw [hmod]
  norm_cast

/-- Claim C6: before serializing a reply, `start_response` sets `Server`,
`Date` and `Content-Length` on it, overwriting whatever values the headers
already carried. -/
theorem C6_start_response_headers (date : String) (r : reply) :
    mapFind (start_response_headers date r)._headers "Server" = some "Seastar httpd" ∧
    mapFind (start_response_headers date r)._headers "Date" = some date ∧
    mapFind (start_response_headers date r)._headers "Content-Length" =
      some (toString r._content.length) := by
  refine ⟨?_, ?_, ?_⟩
  · show mapFind (mapSet (mapSet (mapSet r._headers "Server" "Seastar httpd")
      "Date" date) "Content-Length" (toString r._content.length)) "Server" = _
    rw [mapFind_mapSet_ne _ _ _ _ (by decide), mapFind_mapSet_ne _ _ _ _ (by decide),
      mapFind_mapSet_self]
  · show mapFind (mapSet (mapSet (mapSet r._headers "Server" "Seastar httpd")
      "Date" date) "Content-Length" (toString r._content.length)) "Date" = _
    rw [mapFind_mapSet_ne _ _ _ _ (by decide), mapFind_mapSet_self]
  · show mapFind (mapSet (mapSet (mapSet r._headers "Server" "Seastar httpd")
      "Date" date) "Content-Length" (toString r._content.length)) "Content-Length" = _
    rw [mapFind_mapSet_self]

/-- Claim C7 counterexample: the query parameter `a=%zz` contains an invalid
percent escape (`z` is not a hexadecimal digit), yet `add_param` does not drop
it: the escape is decoded through the unchecked arithmetic of `hex_to_byte`
(yielding the garbage byte 83, i.e. `S`) and the entry is stored. -/
theorem C7_url_decode_counterexample :
    add_param [] ("a=%zz".data) = [(['a'], ['S'])] ∧ add_param [] ("a=%zz".data) ≠ [] := by
  constructor
  · decide
  · decide

/-- Claim C7 as amended: `%HH` with two hexadecimal digits of either case
decodes to the corresponding raw byte and `+` decodes to a space; but only a
parameter whose decode fails is dropped, and the decode fails only for a
truncated escape (a `%` followed by fewer than two characters) — a `%`
followed by any two characters is always consumed, producing a garbage byte
when they are not hexadecimal digits. -/
theorem C7_url_decode_amended :
    (∀ a b rest, is_hex_digit a = true → is_hex_digit b = true →
      url_decode_list ('%' :: a :: b :: rest) =
        (url_decode_list rest).map
          (fun l => Char.ofNat (hex_digit_val a * 16 + hex_digit_val b) :: l))
    ∧ (∀ rest, url_decode_list ('+' :: rest) =
        (url_decode_list rest).map (fun l => ' ' :: l))
    ∧ (∀ a b rest, url_decode_list ('%' :: a :: b :: rest) =
        (url_decode_list rest).map (fun l => hexstr_to_char a b :: l))
    ∧ (∀ (q : List (List Char × List Char)) (tok : List Char),
        find_char tok '=' = none → url_decode_list tok = none → add_param q tok = q) := by
  refine ⟨?_, url_decode_plus, url_decode_pct, ?_⟩
  · intro a b rest ha hb
    rw [url_decode_pct, hexstr_to_char_of_hex a b ha hb]
  · intro q tok h1 h2
    simp [add_param, h1, h2]

/-- Claim C7 amended, witnessed: `%41` decodes via the hex rule, and the
parameter `%A` (truncated escape) is dropped. -/
theorem C7_url_decode_amended_witness :
    (url_decode_list ['%', '4', '1'] =
      (url_decode_list []).map
        (fun l => Char.ofNat (hex_digit_val '4' * 16 + hex_digit_val '1') :: l))
    ∧ add_param ([] : List (List Char × List Char)) ['%', 'A'] = [] :=
  ⟨C7_url_decode_amended.1 '4' '1' [] (by decide) (by decide),
   C7_url_decode_amended.2.2.2 [] ['%', 'A'] (by decide) (by decide)⟩

theorem find_char_none_of_cons (c : Char) (t : List Char) (x : Char)
    (h : find_char (c :: t) x = none) : c ≠ x ∧ find_char t x = none := by
  by_cases hc : c = x
  · subst hc
    simp [find_char] at h
  · refine ⟨hc, ?_⟩
    simp only [find_char, hc, if_false] at h
    cases hfc : find_char t x with
    | none => rfl
    | some n => rw [hfc] at h; simp at h

theorem find_char_append_sep (k v' : List Char) (h : find_char k '=' = none) :
    find_char (k ++ '=' :: v') '=' = some k.length := by
  induction k with
  | nil => simp [find_char]
  | cons c t ih =>
    obtain ⟨hc, ht⟩ := find_char_none_of_cons c t '=' h
    simp only [List.cons_append, find_char, hc, if_false, List.append_eq]
    rw [ih ht]
    simp

/-- Claim C8: a query-string token without `=` is stored (after URL decoding)
with the empty string as value; a token `key=value` is stored as the decoded
key mapped to the decoded value.  The storing presupposes the decodes succeed
(otherwise the parameter is dropped, see C7). -/
theorem C8_query_param_storage :
    (∀ (q : List (List Char × List Char)) (tok dk : List Char),
      find_char tok '=' = none → url_decode_list tok = some dk →
      mapFind (add_param q tok) dk = some ([] : List Char))
    ∧ (∀ (q : List (List Char × List Char)) (k v dk dv : List Char),
      find_char k '=' = none → url_decode_list k = some dk →
      url_decode_list v = some dv →
      mapFind (add_param q (k ++ '=' :: v)) dk = some dv) := by
  constructor
  · intro q tok dk h1 h2
    simp only [add_param, h1, h2]
    exact mapFind_mapSet_self q dk []
  · intro q k v dk dv h1 h2 h3
    have hfind : find_char (k ++ '=' :: v) '=' = some k.length := find_char_append_sep k v h1
    cases v with
    | nil =>
      have hdv : ([] : List Char) = dv := Option.some.inj h3
      simp only [add_param, hfind]
      rw [if_pos (by simp)]
      rw [List.take_left k ('=' :: []), h2, ← hdv]
      exact mapFind_mapSet_self q dk []
    | cons c t =>
      have htake : (k ++ '=' :: c :: t).take k.length = k := List.take_left k ('=' :: c :: t)
      have hdrop : (k ++ '=' :: c :: t).drop (k.length + 1) = c :: t := by
        have he : k ++ '=' :: c :: t = (k ++ ['=']) ++ c :: t := by simp
        have hl : (k ++ ['=']).length = k.length + 1 := by simp
        rw [he, ← hl]
        exact List.drop_left (k ++ ['=']) (c :: t)
      simp only [add_param, hfind]
      rw [if_neg (by simp only [List.length_append, List.length_cons]; omega)]
      rw [htake, hdrop, h2, h3]
      exact mapFind_mapSet_self q dk dv

/-- Claim C8, witnessed on `x` (no `=`) and `k=v`. -/
theorem C8_query_param_storage_witness :
    mapFind (add_param [] ['x']) ['x'] = some ([] : List Char)
    ∧ mapFind (add_param [] (['k'] ++ '=' :: ['v'])) ['k'] = some ['v'] :=
  ⟨C8_query_param_storage.1 [] ['x'] ['x'] (by decide) (by decide),
   C8_query_param_storage.2 [] ['k'] ['v'] ['k'] ['v'] (by decide) (by decide) (by decide)⟩

/-! Helper lemmas about `set_query_param` and `upgrade_websocket`. -/

theorem set_query_param_headers (req : request) :
    (set_query_param req).1._headers = req._headers := by
  unfold set_query_param
  split <;> rfl

theorem upgrade_websocket_snd (wsr : List (List Char)) (st : conn_state) (req : request) :
    (upgrade_websocket wsr st req).2 = connection_status.detach := by
  rcases h : mapFind (set_query_param req).1._headers "Sec-WebSocket-Key" with _ | key
  · simp [upgrade_websocket, h]
  · simp only [upgrade_websocket, h]
    split <;> rfl

/-- Claim C1 counterexample: a websocket-upgrade request (HTTP/1.1,
`Connection: Upgrade`, `Upgrade: websocket`) neither requested keep-alive nor
close, so the closure rule of the claim yields `keep_open`; `generate_reply`
however diverts to `upgrade_websocket` and returns `detach` for it. -/
theorem C1_closure_rule_counterexample :
    generate_reply_status [] conn0 req_upgrade_nokey = connection_status.detach
    ∧ claim_closure_status req_upgrade_nokey = connection_status.keep_open
    ∧ generate_reply_status [] conn0 req_upgrade_nokey ≠
        claim_closure_status req_upgrade_nokey := by
  refine ⟨by decide, by decide, by decide⟩

/-- Claim C1 as amended: for every parsed request that is not diverted to the
websocket-upgrade branch, `generate_reply` returns exactly per the closure
rule (HTTP/1.0 closes unless the `Connection` header is exactly `Keep-Alive`;
HTTP/1.1 closes only if it is exactly `Close`; any other version always
closes; otherwise keep open); a diverted request yields `detach` instead. -/
theorem C1_closure_rule_amended (wsr : List (List Char)) (st : conn_state) (req : request) :
    (upgrade_requested req = false →
      generate_reply_status wsr st req = claim_closure_status req)
    ∧ (upgrade_requested req = true →
      generate_reply_status wsr st req = connection_status.detach) := by
  constructor
  · intro h
    simp only [generate_reply_status, generate_reply, h, Bool.false_eq_true, if_false,
      claim_closure_status]
    cases h10 : (req._version == "1.0") with
    | true =>
      cases hka : (mapFind req._headers "Connection" == some "Keep-Alive") with
      | true => simp [h10, hka]
      | false => simp [h10, hka]
    | false =>
      cases h11 : (req._version == "1.1") with
      | true =>
        cases hcl : (mapFind req._headers "Connection" == some "Close") with
        | true => simp [h10, h11, hcl]
        | false => simp [h10, h11, hcl]
      | false => simp [h10, h11]
  · intro h
    simp only [generate_reply_status, generate_reply, h, if_true]
    exact upgrade_websocket_snd wsr st req

/-- Claim C1 amended, witnessed: a plain HTTP/1.1 request follows the closure
rule; the upgrade request from the counterexample yields `detach`. -/
theorem C1_closure_rule_amended_witness :
    generate_reply_status [] conn0 req_plain = claim_closure_status req_plain
    ∧ generate_reply_status [] conn0 req_upgrade_nokey = connection_status.detach :=
  ⟨(C1_closure_rule_amended [] conn0 req_plain).1 (by decide),
   (C1_closure_rule_amended [] conn0 req_upgrade_nokey).2 (by decide)⟩

/-- Claim C5 counterexample: the source compares the `Connection` value
case-sensitively against `Keep-Alive`, so an HTTP/1.0 request with the header
spelled `Connection: keep-alive` is closed and its prepared response carries
no `Connection` header. -/
theorem C5_keep_alive_counterexample :
    generate_reply_status [] conn0 req_keepalive_lower = connection_status.close
    ∧ (generate_reply_prepared [] conn0 req_keepalive_lower).map
        (fun r => mapFind r._headers "Connection") = some none := by
  refine ⟨by decide, by decide⟩

/-- Claim C5 as amended: for every parsed request with HTTP/1.0 and the
`Connection` header exactly `Keep-Alive`, the reply prepared by
`generate_reply` carries `Connection: Keep-Alive` and `generate_reply`
returns `keep_open`. -/
theorem C5_keep_alive_amended (wsr : List (List Char)) (st : conn_state) (req : request)
    (h1 : req._version = "1.0")
    (h2 : mapFind req._headers "Connection" = some "Keep-Alive") :
    generate_reply_status wsr st req = connection_status.keep_open
    ∧ ∃ r, generate_reply_prepared wsr st req = some r
        ∧ mapFind r._headers "Connection" = some "Keep-Alive" := by
  have hup : upgrade_requested req = false := by
    simp [upgrade_requested, h2]
  constructor
  · simp [generate_reply_status, generate_reply, hup, h1, h2]
  · simp only [generate_reply_prepared, generate_reply, hup, Bool.false_eq_true, if_false,
      h1, h2]
    simp only [beq_self_eq_true, Bool.and_true, Bool.and_self, if_true, Option.some.injEq]
    refine ⟨_, rfl, ?_⟩
    exact mapFind_mapSet_self _ _ _

/-- Claim C5 amended, witnessed on `Connection: Keep-Alive` with HTTP/1.0. -/
theorem C5_keep_alive_amended_witness :
    generate_reply_status [] conn0 req_keepalive_exact = connection_status.keep_open
    ∧ ∃ r, generate_reply_prepared [] conn0 req_keepalive_exact = some r
        ∧ mapFind r._headers "Connection" = some "Keep-Alive" :=
  C5_keep_alive_amended [] conn0 req_keepalive_exact (by decide) (by decide)

/-- Claim C2: a request carrying `Sec-WebSocket-Key` whose path matches a
registered WebSocket route is answered by `upgrade_websocket` with a 101
Switching Protocols reply carrying `Upgrade: websocket`,
`Connection: Upgrade` and `Sec-WebSocket-Accept` equal to the base64-encoded
SHA1 of the key concatenated with the magic GUID; the request is retained in
`_req`, the status becomes `detach`, and the reply is pushed onto the queue. -/
theorem C2_upgrade_websocket_success (wsr : List (List Char)) (st : conn_state)
    (req : request) (key : String)
    (hk : mapFind req._headers "Sec-WebSocket-Key" = some key)
    (hr : wsr.contains (set_query_param req).2 = true) :
    (upgrade_websocket wsr st req).2 = connection_status.detach
    ∧ (upgrade_websocket wsr st req).1._done = connection_status.detach
    ∧ (upgrade_websocket wsr st req).1._req = some (set_query_param req).1
    ∧ ∃ r, (upgrade_websocket wsr st req).1._replies = st._replies ++ [r]
        ∧ r._status = status_type.switching_protocols
        ∧ status_code r._status = 101
        ∧ mapFind r._headers "Upgrade" = some "websocket"
        ∧ mapFind r._headers "Connection" = some "Upgrade"
        ∧ mapFind r._headers "Sec-WebSocket-Accept" =
            some (String.mk (base64_encode
              (sha1 ((key.data ++ websocket_magic).map Char.toNat)))) := by
  have hk2 : mapFind (set_query_param req).1._headers "Sec-WebSocket-Key" = some key := by
    rw [set_query_param_headers]
    exact hk
  have hred : upgrade_websocket wsr st req =
      ({ st with
          _req := some (set_query_param req).1
          _done := connection_status.detach
          _replies := st._replies ++
            [{ _status := status_type.switching_protocols
               _version := req._version
               _headers := mapSet
                 (mapSet (mapSet [] "Upgrade" "websocket") "Connection" "Upgrade")
                 "Sec-WebSocket-Accept"
                 (String.mk (generate_websocket_key key.data)) }] },
       connection_status.detach) := by
    simp only [upgrade_websocket, hk2, hr, if_true]
  rw [hred]
  refine ⟨rfl, rfl, rfl, _, rfl, rfl, rfl, ?_, ?_, ?_⟩
  · rw [mapFind_mapSet_ne _ _ _ _ (by decide), mapFind_mapSet_ne _ _ _ _ (by decide)]
    exact mapFind_mapSet_self _ _ _
  · rw [mapFind_mapSet_ne _ _ _ _ (by decide)]
    exact mapFind_mapSet_self _ _ _
  · exact mapFind_mapSet_self _ _ _

/-- Claim C2, witnessed on the RFC 6455 sample key with a route at `/ws`. -/
theorem C2_upgrade_websocket_success_witness :
    (upgrade_websocket ["/ws".data] conn0 req_upgrade_key).2 = connection_status.detach
    ∧ (upgrade_websocket ["/ws".data] conn0 req_upgrade_key).1._done =
        connection_status.detach
    ∧ (upgrade_websocket ["/ws".data] conn0 req_upgrade_key).1._req =
        some (set_query_param req_upgrade_key).1
    ∧ ∃ r, (upgrade_websocket ["/ws".data] conn0 req_upgrade_key).1._replies =
          conn0._replies ++ [r]
        ∧ r._status = status_type.switching_protocols
        ∧ status_code r._status = 101
        ∧ mapFind r._headers "Upgrade" = some "websocket"
        ∧ mapFind r._headers "Connection" = some "Upgrade"
        ∧ mapFind r._headers "Sec-WebSocket-Accept" =
            some (String.mk (base64_encode
              (sha1 (("dGhlIHNhbXBsZSBub25jZQ==".data ++ websocket_magic).map Char.toNat)))) :=
  C2_upgrade_websocket_success ["/ws".data] conn0 req_upgrade_key
    "dGhlIHNhbXBsZSBub25jZQ==" (by decide) (by decide)

/-- Claim C3: a refused upgrade (key absent or no matching WebSocket route)
pushes a `400 Bad Request` reply and leaves the connection status `detach`
(not `close`) when `upgrade_websocket` returns. -/
theorem C3_upgrade_websocket_refused (wsr : List (List Char)) (st : conn_state)
    (req : request)
    (h : mapFind req._headers "Sec-WebSocket-Key" = none
      ∨ wsr.contains (set_query_param req).2 = false) :
    (upgrade_websocket wsr st req).1._done = connection_status.detach
    ∧ (upgrade_websocket wsr st req).1._done ≠ connection_status.close
    ∧ (upgrade_websocket wsr st req).2 = connection_status.detach
    ∧ (upgrade_websocket wsr st req).1._replies =
        st._replies ++ [{ _status := status_type.bad_request, _version := req._version }]
    ∧ status_code status_type.bad_request = 400 := by
  have hred : upgrade_websocket wsr st req =
      ({ st with
          _done := connection_status.detach
          _replies := st._replies ++
            [{ _status := status_type.bad_request, _version := req._version }] },
       connection_status.detach) := by
    rcases h with h | h
    · have h2 : mapFind (set_query_param req).1._headers "Sec-WebSocket-Key" = none := by
        rw [set_query_param_headers]
        exact h
      simp only [upgrade_websocket, h2]
    · rcases hk : mapFind (set_query_param req).1._headers "Sec-WebSocket-Key" with _ | key
      · simp only [upgrade_websocket, hk]
      · simp only [upgrade_websocket, hk]
        rw [if_neg (show ¬(wsr.contains (set_query_param req).2 = true) by
          rw [h]
          exact Bool.false_ne_true)]
  rw [hred]
  refine ⟨rfl, ?_, rfl, rfl, rfl⟩
  intro hcon
  exact nomatch hcon

/-- Claim C3, witnessed on an upgrade request with no key. -/
theorem C3_upgrade_websocket_refused_witness :
    (upgrade_websocket [] conn0 req_upgrade_nokey).1._done = connection_status.detach
    ∧ (upgrade_websocket [] conn0 req_upgrade_nokey).1._done ≠ connection_status.close
    ∧ (upgrade_websocket [] conn0 req_upgrade_nokey).2 = connection_status.detach
    ∧ (upgrade_websocket [] conn0 req_upgrade_nokey).1._replies =
        conn0._replies ++
          [{ _status := status_type.bad_request, _version := req_upgrade_nokey._version }]
    ∧ status_code status_type.bad_request = 400 :=
  C3_upgrade_websocket_refused [] conn0 req_upgrade_nokey (Or.inl (by decide))

/-- Claim C4, evaluated at the failing input: on the refused-upgrade path the
status still ends up `detach` while the retained request `_req` stays `none`
(the constructor default of a fresh connection), so the join continuation of
`process()` dereferences a null `_req`.  The claim that `_req` is non-null on
every detach path is the intended safety property; the code violates it. -/
theorem C4_refused_upgrade_null_request :
    generate_reply_status [] conn0 req_upgrade_nokey = connection_status.detach
    ∧ (upgrade_websocket [] conn0 req_upgrade_nokey).1._done = connection_status.detach
    ∧ (upgrade_websocket [] conn0 req_upgrade_nokey).1._req = none := by
  refine ⟨by decide, by decide, by decide⟩

/-! Helper lemmas about the lifecycle model. -/

theorem maybe_idle_fields (s : server_state) :
    (maybe_idle s)._stopping = s._stopping
    ∧ (maybe_idle s)._connections_being_accepted = s._connections_being_accepted
    ∧ (maybe_idle s)._current_connections = s._current_connections
    ∧ (maybe_idle s)._connections = s._connections := by
  unfold maybe_idle
  split <;> exact ⟨rfl, rfl, rfl, rfl⟩

theorem quiesced_maybe_idle (s : server_state) :
    quiesced (maybe_idle s) = quiesced s := by
  unfold maybe_idle quiesced
  split <;> rfl

theorem maybe_idle_sets (s : server_state) (h : quiesced s = true) :
    (maybe_idle s)._promise_set = true := by
  unfold maybe_idle
  rw [if_pos]
  · simp only [quiesced, Bool.and_eq_true, beq_iff_eq] at h
    exact ⟨h.1.1, h.1.2, h.2⟩

theorem maybe_idle_promise (s : server_state)
    (h : (maybe_idle s)._promise_set = true) :
    s._promise_set = true ∨ quiesced s = true := by
  unfold maybe_idle at h
  by_cases hc : (s._stopping = true ∧ s._connections_being_accepted = 0
      ∧ s._current_connections = 0)
  · right
    simp [quiesced, hc.1, hc.2.1, hc.2.2]
  · left
    rw [if_neg hc] at h
    exact h

/-- Claim C9 counterexample: on a fresh server (no accepts in flight, no
connections) `stop()` makes the quiescence condition hold immediately, but no
`maybe_idle` call site runs — `stop` itself never calls it — so the promise
behind the returned future is not resolved at the point the condition first
holds. -/
theorem C9_stop_counterexample :
    step server_init event.stopCall = some s_after_stop
    ∧ quiesced s_after_stop = true
    ∧ s_after_stop._promise_set = false := by
  refine ⟨by decide, by decide, by decide⟩

/-- Claim C9 as amended: the promise is only ever resolved at a state where
the quiescence condition holds (soundness of `maybe_idle`), and it is resolved
at every accept-settlement-while-stopping and connection-destruction event
after which the condition holds; the stopping flag set by `stop()` is
idempotent on the server state.  (Resolution can lag the condition: if the
condition already holds at the `stop()` call itself, no event resolves the
promise until a later accept settles or a connection is destroyed.) -/
theorem C9_stop_amended :
    (∀ (s : server_state) (e : event) (s2 : server_state), step s e = some s2 →
      s._promise_set = false → s2._promise_set = true → quiesced s2 = true)
    ∧ (∀ (s s2 : server_state), step s event.acceptSettleStopping = some s2 →
      quiesced s2 = true → s2._promise_set = true)
    ∧ (∀ (s s2 : server_state) (i : Nat), step s (event.destroyConn i) = some s2 →
      quiesced s2 = true → s2._promise_set = true)
    ∧ (∀ (s s2 : server_state), step s event.stopCall = some s2 →
      step s2 event.stopCall = some s2) := by
  refine ⟨?_, ?_, ?_, ?_⟩
  · intro s e s2 hs hp hp2
    cases e with
    | startAccept =>
      obtain rfl := Option.some.inj hs
      have hp' : s._promise_set = true := hp2
      rw [hp] at hp'
      exact absurd hp' (by simp)
    | acceptSettleStopping =>
      simp only [step] at hs
      split at hs
      · obtain rfl := Option.some.inj hs
        rcases maybe_idle_promise _ hp2 with h | h
        · have hp' : s._promise_set = true := h
          rw [hp] at hp'
          exact absurd hp' (by simp)
        · rw [quiesced_maybe_idle]
          exact h
      · exact Option.noConfusion hs
    | acceptNewConn i =>
      simp only [step] at hs
      split at hs
      · obtain rfl := Option.some.inj hs
        have hp' : s._promise_set = true := hp2
        rw [hp] at hp'
        exact absurd hp' (by simp)
      · exact Option.noConfusion hs
    | acceptFail =>
      simp only [step] at hs
      split at hs
      · obtain rfl := Option.some.inj hs
        have hp' : s._promise_set = true := hp2
        rw [hp] at hp'
        exact absurd hp' (by simp)
      · exact Option.noConfusion hs
    | destroyConn i =>
      simp only [step] at hs
      split at hs
      · obtain rfl := Option.some.inj hs
        rcases maybe_idle_promise _ hp2 with h | h
        · have hp' : s._promise_set = true := h
          rw [hp] at hp'
          exact absurd hp' (by simp)
        · rw [quiesced_maybe_idle]
          exact h
      · exact Option.noConfusion hs
    | stopCall =>
      obtain rfl := Option.some.inj hs
      have hp' : s._promise_set = true := hp2
      rw [hp] at hp'
      exact absurd hp' (by simp)
  · intro s s2 hs hq
    simp only [step] at hs
    split at hs
    · obtain rfl := Option.some.inj hs
      rw [quiesced_maybe_idle] at hq
      exact maybe_idle_sets _ hq
    · exact Option.noConfusion hs
  · intro s s2 i hs hq
    simp only [step] at hs
    split at hs
    · obtain rfl := Option.some.inj hs
      rw [quiesced_maybe_idle] at hq
      exact maybe_idle_sets _ hq
    · exact Option.noConfusion hs
  · intro s s2 hs
    obtain rfl := Option.some.inj hs
    rfl

/-- Claim C9 amended, witnessed: an accept settling on a stopping server with
nothing else alive resolves the promise; so does the destruction of the last
connection; setting the stopping flag twice is a no-op. -/
theorem C9_stop_amended_witness :
    quiesced s_quiet = true
    ∧ s_quiet._promise_set = true
    ∧ (step s_one_conn (event.destroyConn 5) = some s_quiet →
        s_quiet._promise_set = true)
    ∧ step s_after_stop event.stopCall = some s_after_stop :=
  ⟨C9_stop_amended.1 s_one_accept event.acceptSettleStopping s_quiet
      (by decide) (by decide) (by decide),
   C9_stop_amended.2.1 s_one_accept s_quiet (by decide) (by decide),
   fun h => C9_stop_amended.2.2.1 s_one_conn s_quiet 5 h (by decide),
   C9_stop_amended.2.2.2 server_init s_after_stop (by decide)⟩

theorem step_preserves_count (s s2 : server_state) (e : event)
    (hs : step s e = some s2)
    (hinv : s._current_connections = s._connections.length) :
    s2._current_connections = s2._connections.length := by
  cases e with
  | startAccept =>
    obtain rfl := Option.some.inj hs
    exact hinv
  | acceptSettleStopping =>
    simp only [step] at hs
    split at hs
    · obtain rfl := Option.some.inj hs
      obtain ⟨-, -, hc, hl⟩ := maybe_idle_fields
        { s with _connections_being_accepted := s._connections_being_accepted - 1 }
      rw [hc, hl]
      exact hinv
    · exact Option.noConfusion hs
  | acceptNewConn i =>
    simp only [step] at hs
    split at hs
    · obtain rfl := Option.some.inj hs
      show s._current_connections + 1 = (i :: s._connections).length
      rw [List.length_cons, hinv]
    · exact Option.noConfusion hs
  | acceptFail =>
    simp only [step] at hs
    split at hs
    · obtain rfl := Option.some.inj hs
      exact hinv
    · exact Option.noConfusion hs
  | destroyConn i =>
    simp only [step] at hs
    split at hs
    · rename_i hmem
      obtain rfl := Option.some.inj hs
      obtain ⟨-, -, hc, hl⟩ := maybe_idle_fields
        { s with
            _current_connections := s._current_connections - 1
            _connections := s._connections.erase i }
      rw [hc, hl]
      show s._current_connections - 1 = (s._connections.erase i).length
      rw [List.length_erase_of_mem hmem, hinv]
    · exact Option.noConfusion hs
  | stopCall =>
    obtain rfl := Option.some.inj hs
    exact hinv

/-- Claim C10: along every lifecycle trace from a fresh server,
`current_connections` equals the number of live connections: the constructor
increments the counter and registers the connection, the destructor decrements
it and removes the connection from the list. -/
theorem C10_current_connections_matches_live (tr : List event) (s : server_state)
    (h : run tr server_init = some s) :
    s._current_connections = s._connections.length := by
  suffices haux : ∀ (tr2 : List event) (s0 s3 : server_state), run tr2 s0 = some s3 →
      s0._current_connections = s0._connections.length →
      s3._current_connections = s3._connections.length by
    exact haux tr server_init s h rfl
  intro tr2
  induction tr2 with
  | nil =>
    intro s0 s3 hr hi
    obtain rfl := Option.some.inj hr
    exact hi
  | cons e rest ih =>
    intro s0 s3 hr hi
    simp only [run] at hr
    cases hstep : step s0 e with
    | none =>
      rw [hstep] at hr
      exact Option.noConfusion hr
    | some s1 =>
      rw [hstep] at hr
      exact ih s1 s3 hr (step_preserves_count s0 s1 e hstep hi)

/-- Claim C10, witnessed on the accept-then-destroy trace. -/
theorem C10_current_connections_matches_live_witness :
    s_after_trace._current_connections = s_after_trace._connections.length :=
  C10_current_connections_matches_live trace_accept_destroy s_after_trace (by decide)

end httpd
